import Mathlib

/-!
# Verification of the ResumeGenerator core (src/js/app.js)

Shallow embedding of the résumé PDF generator's core logic:
the date formatter `formatDate`, the education/experience sorters,
the page-layout engine inside `generatePdf`, and the persistence
round-trip (`safeLoadResume` / `saveResumeToLocalStorage` /
`downloadJson`).

Modelling conventions:
* JavaScript strings are Lean `String`s; a possibly-`undefined` field is
  `Option String` (`none` = the field is absent).
* JavaScript numbers that appear here are small integers and millimetre
  coordinates; coordinates are modelled as exact rationals (the `Frac`
  type below; the layout constants and every claim checked here are
  insensitive to IEEE-754 rounding).
* `Number(s)` is modelled on the fragment relevant to `YYYY-MM` date
  strings: the empty string is `0`, a non-empty all-digit string is its
  decimal value, anything else is NaN (`none`).  Exotic numeric literal
  forms (hex, exponent, sign, decimal point, padding whitespace) do not
  occur in the date-component domain treated by the claims.
* `String.prototype.localeCompare` is modelled as code-unit (lexicographic)
  comparison, which coincides with the en collation on the ASCII digit
  strings (`YYYY-MM`) that populate the date fields being compared.
* `Array.prototype.sort` is a stable comparator sort (ECMA-262); it is
  modelled by `List.insertionSort` with relation `cmp a b ≤ 0`, which is
  stable.
-/

namespace ResumeGen

/-- JS `a || b` for a possibly-undefined string `a`:
`undefined` and `""` are falsy and yield the default. -/
def jsOr (a : Option String) (b : String) : String :=
  match a with
  | none => b
  | some s => if s = "" then b else s

/-- JS truthiness of a possibly-undefined string: `undefined` and `""` are falsy. -/
def jsTruthyS (a : Option String) : Bool :=
  match a with
  | none => false
  | some s => s ≠ ""

/-- JS template-literal interpolation of a possibly-undefined string:
an `undefined` value is rendered as the literal text `undefined`. -/
def jsTemplate (a : Option String) : String :=
  match a with
  | none => "undefined"
  | some s => s

/-- Splitting a character list at every occurrence of `sep`, accumulator
style.  Models `String.prototype.split` with a single-character
separator. -/
def splitChAux (sep : Char) : List Char → List Char → List (List Char)
  | [], acc => [acc.reverse]
  | c :: cs, acc =>
    if c = sep then acc.reverse :: splitChAux sep cs []
    else splitChAux sep cs (c :: acc)

/-- JS `s.split('-')`. -/
def jsSplitDash (s : String) : List String :=
  (splitChAux '-' s.data []).map List.asString

/-- JS `s.split('\n')`. -/
def jsSplitNewline (s : String) : List String :=
  (splitChAux '\n' s.data []).map List.asString

/-- JS `s.trim()`: strips leading and trailing whitespace. -/
def jsTrim (s : String) : String :=
  ⟨((s.data.dropWhile Char.isWhitespace).reverse.dropWhile Char.isWhitespace).reverse⟩

/-- Lexicographic (code-unit) strict comparison of character lists; the
computable model of `<` on JS strings. -/
def strLtb : List Char → List Char → Bool
  | [], [] => false
  | [], _ :: _ => true
  | _ :: _, [] => false
  | a :: as, b :: bs =>
    if a < b then true else if b < a then false else strLtb as bs

/-- Decimal value of a list of digit characters (most significant first). -/
def digitsToNat (l : List Char) : Nat :=
  l.foldl (fun n c => n * 10 + (c.toNat - 48)) 0

/-- JS `Number(s)` on the fragment relevant to date components:
`""` is `0`, a non-empty digit string is its decimal value, and any string
containing a non-digit is NaN, modelled as `none`.  (See the module header
for the domain restriction.) -/
def jsNum (s : String) : Option Nat :=
  if s.data = [] then some 0
  else if s.data.all Char.isDigit then some (digitsToNat s.data)
  else none

/-- JS falsiness of a number-or-NaN: NaN and `0` are falsy. -/
def jsFalsyNum (a : Option Nat) : Bool :=
  match a with
  | none => true
  | some n => n = 0

/-- The en-US abbreviated month names, indexed 0–11 (out of range gives `""`,
which never happens at call sites since the index is taken mod 12). -/
def monthAbbrev (i : Nat) : String :=
  (["Jan", "Feb", "Mar", "Apr", "May", "Jun",
    "Jul", "Aug", "Sep", "Oct", "Nov", "Dec"].getD i "")

/-- Models `new Date(year, month - 1).toLocaleDateString('en-US',
{month: 'short', year: 'numeric'})` for `year ≥ 1`, `month ≥ 1` (the only
values reaching this call, both being JS-truthy numbers parsed from digit
strings): a year argument of 0–99 is remapped to 1900–1999 (ECMA-262
`MakeFullYear`), and a month index ≥ 12 rolls over into later years.
The formatted year is printed without zero padding. -/
def jsDateMonthYear (year month : Nat) : String :=
  let fullYear := if year ≤ 99 then 1900 + year else year
  let mIdx := month - 1
  monthAbbrev (mIdx % 12) ++ " " ++ toString (fullYear + mIdx / 12)

/-- The helper `formatDate` from `generatePdf` (src/js/app.js lines 189–195):
empty or `"Present"` input returns `dateStr || 'Present'` (always
`"Present"`); otherwise the input is split on `'-'`, the first two parts
are converted with `Number`, and if either is falsy (missing, NaN or `0`)
the input is returned unchanged, else the date is rendered via the
`Date` constructor and `toLocaleDateString`. -/
def formatDate (dateStr : String) : String :=
  if dateStr = "" ∨ dateStr = "Present" then "Present"
  else
    let parts := jsSplitDash dateStr
    let year := (parts.get? 0).bind jsNum
    let month := (parts.get? 1).bind jsNum
    if jsFalsyNum year || jsFalsyNum month then dateStr
    else jsDateMonthYear (year.getD 0) (month.getD 0)

/-! ## Exact rational coordinates -/

/-- An exact rational value (used for millimetre coordinates and times of
day), represented as an unreduced fraction whose denominator stays
positive by construction.  Every arithmetic operation below is a plain
integer computation, so the kernel can evaluate whole layout traces; the
operations implement exact rational arithmetic, and no claim checked here
is sensitive to the IEEE-754 rounding of the source's doubles. -/
structure Frac where
  num : Int
  den : Int
deriving DecidableEq, Repr

instance (n : Nat) : OfNat Frac n := ⟨⟨(n : Int), 1⟩⟩

instance : NatCast Frac := ⟨fun n => ⟨(n : Int), 1⟩⟩

instance : OfScientific Frac :=
  ⟨fun m s e =>
    if s then ⟨(m : Int), ((10 ^ e : Nat) : Int)⟩
    else ⟨((m * 10 ^ e : Nat) : Int), 1⟩⟩

instance : Add Frac :=
  ⟨fun a b => ⟨a.num * b.den + b.num * a.den, a.den * b.den⟩⟩

instance : Sub Frac :=
  ⟨fun a b => ⟨a.num * b.den - b.num * a.den, a.den * b.den⟩⟩

instance : Mul Frac := ⟨fun a b => ⟨a.num * b.num, a.den * b.den⟩⟩

instance : Div Frac := ⟨fun a b => ⟨a.num * b.den, a.den * b.num⟩⟩

instance : LT Frac := ⟨fun a b => a.num * b.den < b.num * a.den⟩

instance : LE Frac := ⟨fun a b => a.num * b.den ≤ b.num * a.den⟩

instance (a b : Frac) : Decidable (a < b) :=
  inferInstanceAs (Decidable (a.num * b.den < b.num * a.den))

instance (a b : Frac) : Decidable (a ≤ b) :=
  inferInstanceAs (Decidable (a.num * b.den ≤ b.num * a.den))

/-! ## Date/time points, for the education 3-year threshold -/

/-- A point on the JS `Date` timeline, as calendar components.
`tod` is the time elapsed since local midnight (any unit).  Comparison of
two `Date` values by their millisecond timestamps is order-isomorphic to
lexicographic comparison of these components, which is how comparisons are
modelled; the sub-day offset between the UTC-midnight parse of
`"YYYY-MM-01"` and the local clock is absorbed into `tod`. -/
structure DateTime where
  year : Int
  month : Nat
  day : Nat
  tod : Frac
deriving DecidableEq, Repr

/-- Strict chronological order on `DateTime` (lexicographic). -/
def DateTime.ltB (a b : DateTime) : Bool :=
  decide (a.year < b.year ∨ (a.year = b.year ∧
    (a.month < b.month ∨ (a.month = b.month ∧
      (a.day < b.day ∨ (a.day = b.day ∧ a.tod < b.tod))))))

/-- Days in a month of the proleptic Gregorian calendar used by JS `Date`. -/
def daysInMonth (y : Int) (m : Nat) : Nat :=
  if m = 2 then
    if (y % 4 = 0 ∧ y % 100 ≠ 0) ∨ y % 400 = 0 then 29 else 28
  else if m = 4 ∨ m = 6 ∨ m = 9 ∨ m = 11 then 30
  else 31

/-- Models `d.setFullYear(d.getFullYear() - n)` (src/js/app.js lines
292–293): the year is decremented by `n` keeping month, day-of-month and
time of day; a day-of-month that does not exist in the target month
(Feb 29 in a non-leap year) rolls over into the following month. -/
def jsSetFullYearSub (d : DateTime) (n : Nat) : DateTime :=
  let y := d.year - n
  let dim := daysInMonth y d.month
  if d.day > dim then ⟨y, d.month + 1, d.day - dim, d.tod⟩
  else ⟨y, d.month, d.day, d.tod⟩

/-- Models `new Date(dateStr + "-01")` (src/js/app.js line 314): the
concatenation parses as a valid ISO date exactly when `dateStr` has the
shape `YYYY-MM` (four digits, dash, two digits, month 01–12; the appended
`-01` is the day) or is a bare four-digit year `YYYY` (the appended `-01`
then reads as the month, January); any other shape yields an Invalid
Date, modelled `none`.  (Engine-specific lenient fallback parses of
non-ISO strings are outside this model.) -/
def parseIsoYearMonth (s : String) : Option (Nat × Nat) :=
  match s.data with
  | [y1, y2, y3, y4] =>
    if y1.isDigit ∧ y2.isDigit ∧ y3.isDigit ∧ y4.isDigit then
      some (digitsToNat [y1, y2, y3, y4], 1)
    else none
  | [y1, y2, y3, y4, c, m1, m2] =>
    if c = '-' ∧ y1.isDigit ∧ y2.isDigit ∧ y3.isDigit ∧ y4.isDigit ∧
        m1.isDigit ∧ m2.isDigit then
      let m := digitsToNat [m1, m2]
      if 1 ≤ m ∧ m ≤ 12 then some (digitsToNat [y1, y2, y3, y4], m) else none
    else none
  | _ => none

/-! ## Data model (the JSDoc typedefs, src/js/app.js lines 1–45) -/

/-- A contact record: both fields may be absent. -/
structure Contact where
  name : Option String
  url : Option String
deriving DecidableEq, Repr

/-- An education record. -/
structure Education where
  date : Option String
  degreeType : Option String
  name : Option String
  category : Option String
  city : Option String
  state : Option String
deriving DecidableEq, Repr

/-- An experience record. -/
structure Experience where
  title : Option String
  company : Option String
  location : Option String
  url : Option String
  startDate : Option String
  endDate : Option String
  summary : Option String
  details : Option String
  category : Option String
deriving DecidableEq, Repr

/-- The in-memory résumé consumed by `generatePdf`.  The source stores the
collections in JS `Set`s holding object references; iteration order is
insertion order and structurally equal records are never identified, so a
`List` is the faithful model. -/
structure Resume where
  name : Option String
  email : Option String
  phone : Option String
  additionalText : Option String
  contacts : List Contact
  education : List Education
  experience : List Experience
deriving Repr

/-! ## Section sorters (src/js/app.js lines 287–289 and 343–361) -/

/-- Models `localeCompare` on the date strings, modelled as code-unit comparison
(the en collation coincides with code-unit order on ASCII digit strings
of the `YYYY-MM` shape). -/
def strCompareInt (a b : String) : Int :=
  if strLtb a.data b.data then -1 else if strLtb b.data a.data then 1 else 0

/-- The education sort comparator
`(a, b) => (b.date || "").localeCompare(a.date || "")`. -/
def cmpEdu (a b : Education) : Int :=
  strCompareInt (jsOr b.date "") (jsOr a.date "")

/-- The property keys of `Object.prototype` (its own properties, the
Annex B legacy accessors of web engines included).  `categoryOrder` is a
plain object literal, so the property read `categoryOrder[c]` walks the
prototype chain: for these keys it finds the inherited member — a truthy
function or object — rather than `undefined`. -/
def objectProtoKeys : List String :=
  ["constructor", "hasOwnProperty", "isPrototypeOf", "propertyIsEnumerable",
   "toLocaleString", "toString", "valueOf", "__proto__",
   "__defineGetter__", "__defineSetter__", "__lookupGetter__", "__lookupSetter__"]

/-- The possible values of `categoryOrder[a.category] || 99`: one of the
map's own numbers (or the 99 default), or an inherited `Object.prototype`
member.  The member is identified by its key: two lookups of the same key
return the identical object (so `!==` compares them equal), and lookups
of distinct keys return distinct objects. -/
inductive JsPriority where
  | num (n : Nat)
  | protoMember (key : String)
deriving DecidableEq

/-- Evaluates `categoryOrder[e.category] || 99` (src/js/app.js lines
343–354): the object literal's own keys map to their numbers; a key
naming an inherited `Object.prototype` member yields that member, which
is truthy, so `|| 99` keeps it; any other key (a missing category reads
the key `"undefined"`) yields `undefined`, which `|| 99` turns into 99. -/
def catOrd (e : Experience) : JsPriority :=
  match e.category with
  | some "Work Experience" => .num 1
  | some "Contract" => .num 2
  | some "Internship" => .num 3
  | some "Project" => .num 4
  | some "Projects" => .num 4
  | some "Volunteer" => .num 5
  | some s => if s ∈ objectProtoKeys then .protoMember s else .num 99
  | none => .num 99

/-- The experience sort comparator (src/js/app.js lines 352–361), with
`none` standing for NaN: when `orderA !== orderB` the comparator returns
`orderA - orderB`, and the JS subtraction yields NaN whenever an
inherited `Object.prototype` member is an operand (functions and plain
objects convert to non-numeric strings). -/
def cmpExp (a b : Experience) : Option Int :=
  if catOrd a = catOrd b then
    some (strCompareInt (jsOr b.startDate "") (jsOr a.startDate ""))
  else
    match catOrd a, catOrd b with
    | .num x, .num y => some ((x : Int) - (y : Int))
    | _, _ => none

/-- ECMA-262 `SortCompare` applied to the comparator: a result of NaN is
replaced by `+0`. -/
def sortCompareExp (a b : Experience) : Int :=
  (cmpExp a b).getD 0

/-- The non-strict order induced by the education comparator. -/
abbrev eduR (a b : Education) : Prop := cmpEdu a b ≤ 0

/-- The non-strict order induced by the experience comparator through
`SortCompare`. -/
abbrev expR (a b : Experience) : Prop := sortCompareExp a b ≤ 0

instance : DecidableRel eduR := fun a b => inferInstanceAs (Decidable (cmpEdu a b ≤ 0))

instance : DecidableRel expR := fun a b => inferInstanceAs (Decidable (sortCompareExp a b ≤ 0))

/-- Models `Array.from(resume.education).sort(...)`: a stable comparator sort. -/
def sortEducation (l : List Education) : List Education :=
  l.insertionSort eduR

/-- Models `Array.from(resume.experience).sort(...)`: a stable comparator
sort.  When every category lookup is numeric the comparator is consistent
and this is the behaviour ECMA-262 mandates; when it is not (an inherited
`Object.prototype` member makes some pairs compare as NaN, hence equal),
ECMA-262 leaves the order implementation-defined, and the stable sort
modelled here is one conforming outcome. -/
def sortExperience (l : List Experience) : List Experience :=
  l.insertionSort expR

/-! ## The page-layout engine (`generatePdf`, src/js/app.js lines 168–450)

The jsPDF document object is the external collaborator: the engine is
modelled as producing the ordered list of drawing/state instructions it
issues (`Op`), threading the vertical cursor `y` explicitly.  The
collaborator's text metrics (`doc.getTextWidth`, `doc.splitTextToSize`)
and the page width are abstract parameters (`TextMetrics`). -/

/-- One instruction issued to the PDF collaborator. -/
inductive Op where
  | setFont (family style : String)
  | setFontSize (size : Frac)
  | setTextColor (r g b : Nat)
  | setDrawColor (r g b : Nat)
  | text (s : String) (x y : Frac) (align : Option String)
  | textBlock (lines : List String) (x y : Frac) (align : Option String)
  | link (x y w h : Frac) (url : String)
  | line (x1 y1 x2 y2 : Frac)
  | addPage
deriving DecidableEq, Repr

/-- The collaborator-supplied text metrics and page geometry. -/
structure TextMetrics where
  pageWidth : Frac
  getTextWidth : String → Frac
  splitTextToSize : String → Frac → List String

/-- The constant `margin = 20` (src/js/app.js line 172). -/
def margin : Frac := 20

/-- The helper `getLineHeightMM` (src/js/app.js line 182): pt → mm times spacing. -/
def lhMM (fontSize spacing : Frac) : Frac := fontSize * 0.352778 * spacing

/-- The constant `sectionFontSize = 10.5` (src/js/app.js line 275). -/
def sectionFontSize : Frac := 10.5

/-- The constant `sectionLineHeight` (src/js/app.js line 277, spacing 1). -/
def sectionLineHeight : Frac := lhMM sectionFontSize 1

/-- The education-loop page-break check (src/js/app.js lines 329–332):
past 280mm, add a page and reset the cursor to 20mm.  No font or color
instruction is issued. -/
def pageBreakPlain (y : Frac) : List Op × Frac :=
  if y > 280 then ([Op.addPage], 20) else ([], y)

/-- The experience-loop page-break check (src/js/app.js lines 432–436 and
440–444): past 280mm, add a page, reset the cursor to 20mm, and re-apply
the section font size. -/
def pageBreakRefont (y : Frac) : List Op × Frac :=
  if y > 280 then ([Op.addPage, Op.setFontSize sectionFontSize], 20) else ([], y)

/-- Models `phone.replaceAll(/\s+/g, '')` (src/js/app.js line 213). -/
def stripWhitespace (s : String) : String :=
  (s.data.filter (fun c => ¬ c.isWhitespace)).asString

/-- The contact-line parts (src/js/app.js lines 211–225): phone as a `tel:`
link, email as a `mailto:` link, then every contact with a truthy name,
carrying its (possibly absent) url. -/
def contactParts (resume : Resume) : List (String × Option String) :=
  (if jsTruthyS resume.phone then
    [(jsOr resume.phone "",
      some ("tel:" ++ stripWhitespace (jsOr resume.phone "")))] else []) ++
  (if jsTruthyS resume.email then
    [(jsOr resume.email "", some ("mailto:" ++ jsOr resume.email ""))] else []) ++
  resume.contacts.filterMap (fun c =>
    if jsTruthyS c.name then some (jsOr c.name "", c.url) else none)

/-- Drawing of one contact part at abscissa `x` (src/js/app.js lines
243–250): blue text, plus a link rectangle when the part has a truthy
link. -/
def contactPartOps (cfg : TextMetrics) (yv x : Frac) (p : String × Option String) :
    List Op :=
  [Op.setTextColor 0 0 255, Op.text p.1 x yv none] ++
  (if jsTruthyS p.2 then
    [Op.link x (yv - 4) (cfg.getTextWidth p.1) 5 (jsOr p.2 "")] else [])

/-- The contact-line loop (src/js/app.js lines 242–257): parts drawn left
to right, separated by `" | "` in black. -/
def contactLoop (cfg : TextMetrics) (yv : Frac) : Frac → List (String × Option String) → List Op
  | _, [] => []
  | x, [p] => contactPartOps cfg yv x p
  | x, p :: q :: rest =>
    contactPartOps cfg yv x p ++
    [Op.setTextColor 0 0 0, Op.text " | " (x + cfg.getTextWidth p.1) yv none] ++
    contactLoop cfg yv (x + cfg.getTextWidth p.1 + cfg.getTextWidth " | ") (q :: rest)

/-- Total width of the contact line (src/js/app.js lines 232–238). -/
def contactsTotalWidth (cfg : TextMetrics) (parts : List (String × Option String)) : Frac :=
  (parts.map (fun p => cfg.getTextWidth p.1)).sum +
    ((parts.length - 1 : Nat) : Frac) * cfg.getTextWidth " | "

/-- The header block (src/js/app.js lines 197–272): name centered bold
14pt, the contact line (skipped entirely, with no vertical advance, when
there are no parts), the centered additional-text block, then a fixed 5mm
gap.  Returns the issued ops and the cursor below the header. -/
def renderHeader (cfg : TextMetrics) (resume : Resume) : List Op × Frac :=
  let y0 : Frac := 20
  let nameOps := [Op.setFont "helvetica" "normal", Op.setFontSize 14,
    Op.setFont "helvetica" "bold",
    Op.text (jsOr resume.name "") (cfg.pageWidth / 2) y0 (some "center")]
  let y1 := y0 + lhMM 14 1.15
  let fontOps := [Op.setFontSize 12, Op.setFont "helvetica" "normal"]
  let parts := contactParts resume
  let contactOps :=
    if parts = [] then []
    else contactLoop cfg y1 ((cfg.pageWidth - contactsTotalWidth cfg parts) / 2) parts
  let y2 := if parts = [] then y1 else y1 + lhMM 12 1.15
  let addl := resume.additionalText.map jsTrim
  let addlLines := cfg.splitTextToSize (jsOr addl "") (cfg.pageWidth - 2 * margin)
  let addlOps :=
    if jsTruthyS addl then
      [Op.setTextColor 0 0 0, Op.setFontSize 12,
       Op.textBlock addlLines (cfg.pageWidth / 2) y2 (some "center")]
    else []
  let y3 := if jsTruthyS addl then y2 + (addlLines.length : Frac) * lhMM 12 1.15 else y2
  (nameOps ++ fontOps ++ contactOps ++ addlOps, y3 + 5)

/-- The `, city, state` clause of an education line
(src/js/app.js lines 300–307). -/
def eduLocationText (edu : Education) : String :=
  if jsTruthyS edu.city ∧ jsTruthyS edu.state then
    ", " ++ jsOr edu.city "" ++ ", " ++ jsOr edu.state ""
  else if jsTruthyS edu.city then ", " ++ jsOr edu.city ""
  else if jsTruthyS edu.state then ", " ++ jsOr edu.state ""
  else ""

/-- The left-aligned education line (src/js/app.js line 309); template
interpolation renders an absent field as the literal text `undefined`. -/
def eduLeftText (edu : Education) : String :=
  "• " ++ jsTemplate edu.degreeType ++ " in " ++ jsTemplate edu.category ++
    " | " ++ jsTemplate edu.name ++ eduLocationText edu

/-- The right-aligned education field (src/js/app.js lines 311–321):
empty when the date is absent; `"Status - Graduated"` when the date,
parsed as the first of its month, is strictly before the 3-years-ago
threshold; otherwise the formatted date. -/
def eduRightText (threshold : DateTime) (edu : Education) : String :=
  if jsTruthyS edu.date then
    let ds := jsOr edu.date ""
    let older := match parseIsoYearMonth ds with
      | some (y, m) => DateTime.ltB ⟨(y : Int), m, 1, 0⟩ threshold
      | none => false
    if older then "Status - Graduated" else formatDate ds
  else ""

/-- One education record (src/js/app.js lines 295–333): a Certificate
renders only its bulleted name; otherwise the left line plus the right
field when non-empty.  One line height is advanced, then the plain page
break check runs. -/
def renderEducationRecord (cfg : TextMetrics) (threshold : DateTime)
    (y : Frac) (edu : Education) : List Op × Frac :=
  let drawOps :=
    if edu.degreeType = some "Certificate" then
      [Op.text ("• " ++ jsTemplate edu.name) (margin + 5) y none]
    else
      [Op.text (eduLeftText edu) (margin + 5) y none] ++
      (if eduRightText threshold edu ≠ "" then
        [Op.text (eduRightText threshold edu) (cfg.pageWidth - margin) y (some "right")]
       else [])
  (drawOps ++ (pageBreakPlain (y + sectionLineHeight)).1,
   (pageBreakPlain (y + sectionLineHeight)).2)

/-- The right-aligned experience date range (src/js/app.js lines 399–403):
the dash-joined formatted start and end, or the end alone when the
formatted start is falsy. -/
def expRightText (exp : Experience) : String :=
  let start := jsOr exp.startDate ""
  let endd := jsOr exp.endDate "Present"
  let formattedStart := formatDate start
  let formattedEnd := formatDate endd
  if formattedStart ≠ "" then formattedStart ++ " - " ++ formattedEnd
  else formattedEnd

/-- The experience heading line (src/js/app.js lines 363–410): italic;
the title in blue with link rectangle and underline when a url is present;
the `, company, location` run; the right-aligned date range.  One line
height is advanced, plus 1mm of underline clearance whenever the url is
truthy. -/
def renderExpHeading (cfg : TextMetrics) (y : Frac) (exp : Experience) : List Op × Frac :=
  let title := jsOr exp.title ""
  let company := jsOr exp.company ""
  let location := jsOr exp.location ""
  let url := jsOr exp.url ""
  let titleOps :=
    if title ≠ "" then
      (if url ≠ "" then [Op.setTextColor 0 0 255] else []) ++
      [Op.text title margin y none] ++
      (if url ≠ "" then
        [Op.link margin (y - 4) (cfg.getTextWidth title) 5 url,
         Op.setDrawColor 0 0 255,
         Op.line margin (y + 0.5) (margin + cfg.getTextWidth title) (y + 0.5),
         Op.setTextColor 0 0 0, Op.setDrawColor 0 0 0]
       else [])
    else []
  let currentX := if title ≠ "" then margin + cfg.getTextWidth title else margin
  let remainingParts :=
    (if company ≠ "" then [company] else []) ++
    (if location ≠ "" then [location] else [])
  let remOps :=
    if remainingParts ≠ [] then
      [Op.text ((if title ≠ "" then ", " else "") ++
        String.intercalate ", " remainingParts) currentX y none]
    else []
  let rightOps := [Op.text (expRightText exp) (cfg.pageWidth - margin) y (some "right")]
  let y1 := y + sectionLineHeight
  let y2 := if url ≠ "" then y1 + 1 else y1
  ([Op.setFont "helvetica" "italic"] ++ titleOps ++ remOps ++ rightOps, y2)

/-- The bullet candidates (src/js/app.js lines 414–425): the trimmed
summary when truthy, then the details split on newlines, trimmed,
non-empty. -/
def bulletsOf (exp : Experience) : List String :=
  (match exp.summary with
   | some s => if jsTrim s = "" then [] else [jsTrim s]
   | none => []) ++
  (if jsTruthyS exp.details then
    ((jsSplitNewline (exp.details.getD "")).map jsTrim).filter
      (fun s => s.length > 0)
   else [])

/-- One bullet (src/js/app.js lines 428–437): the wrapped `• ` text block,
cursor advanced by wrapped-line-count × line height × 1.2, then the
font-re-applying page-break check. -/
def bulletStep (cfg : TextMetrics) (acc : List Op × Frac) (b : String) : List Op × Frac :=
  let sb := cfg.splitTextToSize ("• " ++ b) (cfg.pageWidth - 2 * margin - 5)
  (acc.1 ++ [Op.textBlock sb (margin + 5) acc.2 none] ++
     (pageBreakRefont (acc.2 + (sb.length : Frac) * sectionLineHeight * 1.2)).1,
   (pageBreakRefont (acc.2 + (sb.length : Frac) * sectionLineHeight * 1.2)).2)

/-- The bullet loop (src/js/app.js lines 412–437): normal font, then at
most the first 8 bullet candidates. -/
def renderExpBullets (cfg : TextMetrics) (y : Frac) (exp : Experience) : List Op × Frac :=
  ((bulletsOf exp).take 8).foldl (bulletStep cfg) ([Op.setFont "helvetica" "normal"], y)

/-- The inter-entry gap (src/js/app.js lines 439–444): line height ÷ 1.5,
then the font-re-applying page-break check. -/
def entryGap (y : Frac) : List Op × Frac :=
  pageBreakRefont (y + sectionLineHeight / 1.5)

/-- One experience entry (src/js/app.js lines 363–445). -/
def renderExpEntry (cfg : TextMetrics) (y : Frac) (exp : Experience) : List Op × Frac :=
  let h := renderExpHeading cfg y exp
  let b := renderExpBullets cfg h.2 exp
  let g := entryGap b.2
  (h.1 ++ b.1 ++ g.1, g.2)

/-- Folds a per-record renderer over a list of records, accumulating ops
and threading the cursor. -/
def foldRender {α : Type} (f : Frac → α → List Op × Frac)
    (init : List Op × Frac) (l : List α) : List Op × Frac :=
  l.foldl (fun acc a => ((acc.1 ++ (f acc.2 a).1, (f acc.2 a).2) : List Op × Frac)) init

/-- The engine `generatePdf` (src/js/app.js lines 168–450) as the instruction trace it
issues to the jsPDF collaborator: header block, education section (sorted
date-descending, 3-year threshold computed from `now`), experience section
(sorted by category priority then start date descending). -/
def generatePdf (cfg : TextMetrics) (now : DateTime) (resume : Resume) : List Op :=
  let hdr := renderHeader cfg resume
  let eduHeadOps := [Op.setFontSize sectionFontSize, Op.setTextColor 0 0 0,
    Op.setFont "helvetica" "bold",
    Op.text "Education and Certification" margin hdr.2 none,
    Op.setFont "helvetica" "normal"]
  let yEdu := hdr.2 + sectionLineHeight
  let threshold := jsSetFullYearSub now 3
  let edu := foldRender (renderEducationRecord cfg threshold) ([], yEdu)
    (sortEducation resume.education)
  let yExpHead := edu.2 + 5
  let expHeadOps := [Op.setFont "helvetica" "bold",
    Op.text "Work History/Projects/Internships" margin yExpHead none]
  let yExp := yExpHead + sectionLineHeight
  let exps := foldRender (renderExpEntry cfg) ([], yExp)
    (sortExperience resume.experience)
  hdr.1 ++ eduHeadOps ++ edu.1 ++ expHeadOps ++ exps.1

/-! ### Observers on instruction traces -/

/-- The alignment of a text-drawing instruction. -/
def opAlign : Op → Option String
  | Op.text _ _ _ al => al
  | Op.textBlock _ _ _ al => al
  | _ => none

/-- Whether an instruction sets the font size. -/
def opIsSetFontSize : Op → Bool
  | Op.setFontSize _ => true
  | _ => false

/-- Whether an instruction changes font style or a color. -/
def opIsStyleOrColor : Op → Bool
  | Op.setFont _ _ => true
  | Op.setTextColor _ _ _ => true
  | Op.setDrawColor _ _ _ => true
  | _ => false

/-- Whether an instruction is a hyperlink rectangle. -/
def opIsLink : Op → Bool
  | Op.link _ _ _ _ _ => true
  | _ => false

/-- The text of a single-run text instruction. -/
def opTextContent : Op → Option String
  | Op.text s _ _ _ => some s
  | _ => none

/-- The wrapped-lines payloads of the block-text instructions, in order. -/
def extractBlocks (l : List Op) : List (List String) :=
  l.filterMap (fun op => match op with
    | Op.textBlock ls _ _ _ => some ls
    | _ => none)

/-- Detects a page break that is not immediately followed by a font-size
re-application. -/
def breakWithoutRefont : List Op → Bool
  | [] => false
  | Op.addPage :: rest =>
    (match rest with
     | Op.setFontSize _ :: _ => false
     | _ => true) || breakWithoutRefont rest
  | _ :: rest => breakWithoutRefont rest

/-- A concrete collaborator: every string is 1mm-per-character wide and
wraps to a single line.  Used to evaluate the engine on closed inputs. -/
def cfgU : TextMetrics :=
  ⟨210, fun s => (s.length : Frac), fun s _ => [s]⟩

/-! ## Persistence: load/migrate and serialize
(`safeLoadResume`, `saveResumeToLocalStorage`, `downloadJson`;
src/js/app.js lines 47–60, 70–89, 113–137, 732–763)

The migration `migrateItem` operates on the keys of raw JSON objects, so
the persistence-facing model represents a record as its insertion-ordered
key/value list (all schema record values are strings).  `tags` entries are
copied without migration and keep their typed shape. -/

/-- A raw JSON record as an insertion-ordered key/value list.  A parsed JS
object has pairwise-distinct keys. -/
abbrev JsObject := List (String × String)

/-- A tag (the `Tag` typedef, src/js/app.js lines 29–32). -/
structure Tag where
  string : String
  isRegex : Bool
deriving DecidableEq, Repr

/-- The persisted/exported document shape: every schema field, each
possibly absent in a raw loaded document. -/
structure LoadedDoc where
  version : Option String
  name : Option String
  email : Option String
  phone : Option String
  additionalText : Option String
  contacts : Option (List JsObject)
  education : Option (List JsObject)
  experience : Option (List JsObject)
  tags : Option (List Tag)
deriving DecidableEq, Repr

/-- The in-memory resume state as persisted (the `resume` global,
src/js/app.js lines 49–60). -/
structure ResumeState where
  version : String
  name : String
  email : String
  phone : String
  additionalText : String
  contacts : List JsObject
  education : List JsObject
  experience : List JsObject
  tags : List Tag
deriving DecidableEq, Repr

/-- The constant `APP_VERSION` (src/js/app.js line 47). -/
def APP_VERSION : String := "1.0.0"

/-- The initial `resume` global (src/js/app.js lines 50–60). -/
def initialResume : ResumeState :=
  ⟨APP_VERSION, "", "", "", "", [], [], [], []⟩

/-- Models `part.charAt(0).toUpperCase() + part.slice(1)`
(src/js/app.js line 87), for the ASCII form keys. -/
def capitalizeFirst (s : String) : String :=
  match s.data with
  | [] => ""
  | c :: cs => (c.toUpper :: cs).asString

/-- The helper `mapKeyToProperty` (src/js/app.js lines 70–89): two manual overrides,
then the `experience-`/`education-`/`contact-` prefix is dropped and the
remaining hyphenated parts are camel-cased. -/
def mapKeyToProperty (key : String) : String :=
  if key = "contact-form-name-input" then "name"
  else if key = "contact-form-url-input" then "url"
  else
    let parts := jsSplitDash key
    let parts :=
      if parts.length > 1 ∧ (parts.head? = some "experience" ∨
          parts.head? = some "education" ∨ parts.head? = some "contact")
      then parts.tail else parts
    match parts with
    | [] => ""
    | p :: rest => p ++ String.join (rest.map capitalizeFirst)

/-- The helper `migrateItem` (src/js/app.js lines 124–131): every key is passed
through `mapKeyToProperty`.  A parsed JS object has distinct keys, and on
the schema's camelCase keys the mapping is the identity (hence injective
there), so the rebuild is a per-entry map. -/
def migrateItem (item : JsObject) : JsObject :=
  item.map (fun kv => (mapKeyToProperty kv.1, kv.2))

/-- The loader `safeLoadResume` (src/js/app.js lines 113–137): scalar fields default
to `""`, collection fields to `[]`, record entries are migrated, tags are
copied as-is.  `resume.version` is not assigned. -/
def safeLoadResume (resume : ResumeState) (loaded : LoadedDoc) : ResumeState :=
  { resume with
    name := jsOr loaded.name ""
    email := jsOr loaded.email ""
    phone := jsOr loaded.phone ""
    additionalText := jsOr loaded.additionalText ""
    contacts := (loaded.contacts.getD []).map migrateItem
    education := (loaded.education.getD []).map migrateItem
    experience := (loaded.experience.getD []).map migrateItem
    tags := loaded.tags.getD [] }

/-- The serialized document built by `saveResumeToLocalStorage` and
`downloadJson` (src/js/app.js lines 732–741 and 746–754): the resume
spread with each `Set` turned into an array; every schema field is
present. -/
def serializeResume (r : ResumeState) : LoadedDoc :=
  ⟨some r.version, some r.name, some r.email, some r.phone,
   some r.additionalText, some r.contacts, some r.education,
   some r.experience, some r.tags⟩

/-! ## Spec-side definitions and concrete record instances -/

/-- A string surely mapped to NaN by JS `Number`: it contains an ASCII
character that cannot occur in any numeric literal (not a digit, not
whitespace, not a sign/point/exponent/radix marker, not a hex digit, not a
letter of `Infinity`).  Non-ASCII characters are conservatively excluded
from witnessing, because some are trimmable whitespace. -/
def jsDefinitelyNonNumeric (s : String) : Prop :=
  ∃ c ∈ s.data, ¬ (c.isDigit ∨ c.isWhitespace ∨ 128 ≤ c.toNat ∨
    c ∈ ['.', '+', '-', 'e', 'E', 'x', 'X', 'o', 'O', 'b', 'B',
         'a', 'c', 'd', 'f', 'A', 'C', 'D', 'F', 'I', 'n', 'i', 't', 'y'])

instance (s : String) : Decidable (jsDefinitelyNonNumeric s) := by
  unfold jsDefinitelyNonNumeric
  infer_instance

/-- Modelled from the spec: `isOlderThanThreshold(dateStr, referenceDate,
years)` — the date string, parsed as the first day of its month, is
strictly earlier than the reference date minus `years` years; an
unparseable date is never "older". -/
def specIsOlderB (dateStr : String) (reference : DateTime) (years : Nat) : Bool :=
  match parseIsoYearMonth dateStr with
  | some (y, m) => DateTime.ltB ⟨(y : Int), m, 1, 0⟩ (jsSetFullYearSub reference years)
  | none => false

/-- Modelled from the claim's words: the priority map read as own keys to
their numbers and "any other category" to 99, collapsing the inherited
`Object.prototype` members the code actually produces into the 99
default. -/
def claimPriority (e : Experience) : Nat :=
  match catOrd e with
  | .num n => n
  | .protoMember _ => 99

/-- True when `categoryOrder[e.category] || 99` is an actual number, that
is, the category is not the name of an inherited `Object.prototype`
member; on such records the comparator behaves as the claim describes. -/
def catOrdNum (e : Experience) : Bool :=
  match catOrd e with
  | .num _ => true
  | .protoMember _ => false

/-- The key order the claim describes: category priority ascending, then
start date descending (undated last follows from `""` being the least
string). -/
def expKeyLe (a b : Experience) : Prop :=
  claimPriority a < claimPriority b ∨
    (claimPriority a = claimPriority b ∧ jsOr b.startDate "" ≤ jsOr a.startDate "")

instance : DecidableRel expKeyLe := fun a b => by
  unfold expKeyLe
  infer_instance

/-- A demo record with only a category. -/
def demoCat (t c : String) : Experience :=
  ⟨some t, none, none, none, none, none, none, none, some c⟩

/-- The bullet candidates as the claim words them: the trimmed summary
when non-empty as the first bullet, then the details split on newlines,
each trimmed, empty lines discarded, in original order.  Stated
independently of the code path, for comparison. -/
def specBullets (exp : Experience) : List String :=
  (if jsTrim (jsOr exp.summary "") ≠ "" then [jsTrim (jsOr exp.summary "")] else []) ++
  ((jsSplitNewline (jsOr exp.details "")).map jsTrim).filter (fun s => s ≠ "")

/-- The record `exp10`: an experience record with 10 non-empty detail lines. -/
def exp10 : Experience :=
  ⟨none, none, none, none, none, none, none,
   some "L1\nL2\nL3\nL4\nL5\nL6\nL7\nL8\nL9\nL10", none⟩

/-- The schema's contact record keys. -/
def contactKeys : List String := ["name", "url"]

/-- The schema's education record keys. -/
def educationKeys : List String :=
  ["date", "degreeType", "name", "category", "city", "state"]

/-- The schema's experience record keys. -/
def experienceKeys : List String :=
  ["title", "company", "location", "url", "startDate", "endDate",
   "summary", "details", "category"]

/-! ## Sanity checks on concrete inputs -/

example : formatDate "2021-06" = "Jun 2021" := by decide
example : formatDate "2021-13" = "Jan 2022" := by decide
example : formatDate "2021-00" = "2021-00" := by decide
example : formatDate "0050-06" = "Jun 1950" := by decide
example : formatDate "" = "Present" := by decide
example : formatDate "Present" = "Present" := by decide
example : formatDate "2021-junk" = "2021-junk" := by decide
example : (2 : Frac) * 3 > 5 := by decide
example : (0.352778 : Frac) * 2 < 1 := by decide
example : parseIsoYearMonth "2019-05" = some (2019, 5) := by decide
example : parseIsoYearMonth "garbage" = none := by decide
example : parseIsoYearMonth "2021-13" = none := by decide
example : mapKeyToProperty "experience-start-date" = "startDate" := by decide
example : mapKeyToProperty "startDate" = "startDate" := by decide

/-! ## Helper lemmas about the split/parse pipeline -/

theorem splitChAux_no_sep (sep : Char) (xs : List Char) (acc : List Char)
    (h : sep ∉ xs) : splitChAux sep xs acc = [acc.reverse ++ xs] := by
  induction xs generalizing acc with
  | nil => simp [splitChAux]
  | cons c cs ih =>
    simp only [List.mem_cons, not_or] at h
    rw [splitChAux, if_neg (fun hc => h.1 hc.symm), ih _ h.2]
    simp

theorem splitChAux_sep (sep : Char) (xs ys acc : List Char) (h : sep ∉ xs) :
    splitChAux sep (xs ++ sep :: ys) acc =
      (acc.reverse ++ xs) :: splitChAux sep ys [] := by
  induction xs generalizing acc with
  | nil => simp [splitChAux]
  | cons c cs ih =>
    simp only [List.mem_cons, not_or] at h
    rw [List.cons_append, splitChAux, if_neg (fun hc => h.1 hc.symm), ih _ h.2]
    simp

theorem data_append3 (a b : String) :
    (a ++ "-" ++ b).data = a.data ++ '-' :: b.data := by
  rw [String.data_append, String.data_append]
  simp

theorem data_asString (s : String) : s.data.asString = s :=
  String.asString_toList s

theorem jsSplitDash_pair (a b : String) (ha : '-' ∉ a.data) (hb : '-' ∉ b.data) :
    jsSplitDash (a ++ "-" ++ b) = [a, b] := by
  unfold jsSplitDash
  rw [data_append3, splitChAux_sep _ _ _ _ ha, splitChAux_no_sep _ _ _ hb]
  simp [data_asString]

theorem jsSplitDash_single (s : String) (h : '-' ∉ s.data) :
    jsSplitDash s = [s] := by
  unfold jsSplitDash
  rw [splitChAux_no_sep _ _ _ h]
  simp [data_asString]

theorem append_dash_ne_empty (a b : String) : a ++ "-" ++ b ≠ "" := by
  intro h
  have := congrArg String.data h
  rw [data_append3] at this
  simp at this

theorem append_dash_ne_present (a b : String) : a ++ "-" ++ b ≠ "Present" := by
  intro h
  have hmem : '-' ∈ (a ++ "-" ++ b).data := by
    rw [data_append3]; simp
  rw [h] at hmem
  revert hmem
  decide

theorem jsNum_none_of_nonNumeric (s : String) (h : jsDefinitelyNonNumeric s) :
    jsNum s = none := by
  obtain ⟨c, hc, hprop⟩ := h
  have hnd : ¬ c.isDigit := fun hd => hprop (Or.inl hd)
  unfold jsNum
  rw [if_neg, if_neg]
  · intro hall
    exact hnd (List.all_eq_true.mp hall c hc)
  · intro hnil
    rw [hnil] at hc
    exact absurd hc (List.not_mem_nil c)

/-- A component that is empty or surely non-numeric is JS-falsy after
`Number` conversion. -/
theorem jsFalsy_of_malformed (s : String)
    (h : s = "" ∨ jsDefinitelyNonNumeric s) : jsFalsyNum (jsNum s) = true := by
  rcases h with h | h
  · subst h; decide
  · rw [jsNum_none_of_nonNumeric s h]; rfl

/-- Evaluates `formatDate` on a two-component input whose parse succeeded. -/
theorem formatDate_parsed (a b : String) (yv mv : Nat)
    (ha : jsNum a = some yv) (hb : jsNum b = some mv)
    (hy : yv ≠ 0) (hm : mv ≠ 0)
    (hda : '-' ∉ a.data) (hdb : '-' ∉ b.data) :
    formatDate (a ++ "-" ++ b) = jsDateMonthYear yv mv := by
  unfold formatDate
  rw [if_neg (by
    rintro (h | h)
    · exact append_dash_ne_empty a b h
    · exact append_dash_ne_present a b h)]
  rw [jsSplitDash_pair a b hda hdb]
  simp [ha, hb, jsFalsyNum, hy, hm]

/-- The function `formatDate` returns the input unchanged when either component is
falsy after `Number` conversion. -/
theorem formatDate_unchanged (a b : String)
    (hda : '-' ∉ a.data) (hdb : '-' ∉ b.data)
    (h : jsFalsyNum (jsNum a) = true ∨ jsFalsyNum (jsNum b) = true) :
    formatDate (a ++ "-" ++ b) = a ++ "-" ++ b := by
  unfold formatDate
  rw [if_neg (by
    rintro (h | h)
    · exact append_dash_ne_empty a b h
    · exact append_dash_ne_present a b h)]
  rw [jsSplitDash_pair a b hda hdb]
  rcases h with h | h <;> simp [h]

/-- The function `formatDate` returns a dash-free input other than `""`/`"Present"`
unchanged: the month component is missing. -/
theorem formatDate_no_dash (s : String) (hd : '-' ∉ s.data)
    (hne : s ≠ "") (hnp : s ≠ "Present") : formatDate s = s := by
  unfold formatDate
  rw [if_neg (by rintro (h | h) <;> [exact hne h; exact hnp h])]
  rw [jsSplitDash_single s hd]
  simp [jsFalsyNum]

theorem monthAbbrev_length (k : Nat) (h : k < 12) :
    (monthAbbrev k).data.length = 3 := by
  interval_cases k <;> decide

theorem jsDateMonthYear_ne_empty (y m : Nat) : jsDateMonthYear y m ≠ "" := by
  intro h
  have hmem : ' ' ∈ (jsDateMonthYear y m).data := by
    unfold jsDateMonthYear
    rw [String.data_append, String.data_append]
    refine List.mem_append_left _ (List.mem_append_right _ ?_)
    decide
  rw [h] at hmem
  exact absurd hmem (by decide)

/-- Zeta-expanded form of `formatDate`, for case analysis. -/
theorem formatDate_eq (dateStr : String) :
    formatDate dateStr =
      if dateStr = "" ∨ dateStr = "Present" then "Present"
      else if jsFalsyNum (((jsSplitDash dateStr).get? 0).bind jsNum) ||
              jsFalsyNum (((jsSplitDash dateStr).get? 1).bind jsNum) then dateStr
      else jsDateMonthYear ((((jsSplitDash dateStr).get? 0).bind jsNum).getD 0)
            ((((jsSplitDash dateStr).get? 1).bind jsNum).getD 0) := rfl

/-- Every output of `formatDate` is a non-empty string, so the call-site
branch `formattedStart ? start+dash+end : end` (src/js/app.js line 403)
always takes the dash branch: the no-dash display is unreachable. -/
theorem formatDate_ne_empty (s : String) : formatDate s ≠ "" := by
  rw [formatDate_eq]
  split
  · decide
  · rename_i hor
    split
    · intro h
      exact hor (Or.inl h)
    · exact jsDateMonthYear_ne_empty _ _

/-- Zeta-expanded form of `jsDateMonthYear`, for rewriting. -/
theorem jsDateMonthYear_eq (y m : Nat) :
    jsDateMonthYear y m = monthAbbrev ((m - 1) % 12) ++ " " ++
      toString ((if y ≤ 99 then 1900 + y else y) + (m - 1) / 12) := rfl

/-- Evaluates `formatDate` on a fully valid `YYYY-MM` with a 4-digit year ≥ 1000. -/
theorem formatDate_valid (a b : String) (yv mv : Nat)
    (ha : jsNum a = some yv) (hb : jsNum b = some mv)
    (hy1 : 1000 ≤ yv) (hy2 : yv ≤ 9999) (hm1 : 1 ≤ mv) (hm2 : mv ≤ 12)
    (hda : '-' ∉ a.data) (hdb : '-' ∉ b.data) :
    formatDate (a ++ "-" ++ b) = monthAbbrev (mv - 1) ++ " " ++ toString yv := by
  rw [formatDate_parsed a b yv mv ha hb (by omega) (by omega) hda hdb,
    jsDateMonthYear_eq, if_neg (by omega), Nat.mod_eq_of_lt (by omega),
    Nat.div_eq_of_lt (by omega), Nat.add_zero]

/-- Evaluates `formatDate` on a `YYYY-MM` whose month exceeds 12: the `Date`
constructor rolls the excess into later years. -/
theorem formatDate_rollover (a b : String) (yv mv : Nat)
    (ha : jsNum a = some yv) (hb : jsNum b = some mv)
    (hy1 : 1000 ≤ yv) (hy2 : yv ≤ 9999) (hm1 : 13 ≤ mv) (hm2 : mv ≤ 99)
    (hda : '-' ∉ a.data) (hdb : '-' ∉ b.data) :
    formatDate (a ++ "-" ++ b) =
      monthAbbrev ((mv - 1) % 12) ++ " " ++ toString (yv + (mv - 1) / 12) := by
  rw [formatDate_parsed a b yv mv ha hb (by omega) (by omega) hda hdb,
    jsDateMonthYear_eq, if_neg (by omega)]

/-! ## Claim theorems: the date formatter (C1, C5, C10) -/

/-- C1 (code bug): the claim states that an empty `startDate` makes the
right-aligned experience date field show only the formatted end value with
no dash, because `formatDate` maps the empty string to the empty string at
this call site.  In the code `formatDate("")` evaluates to `"Present"`,
every `formatDate` result is non-empty (so the call site's no-dash branch
is dead), and the concrete record with empty start and end `"2021-06"`
renders `"Present - Jun 2021"` instead of the claimed `"Jun 2021"`. -/
theorem c1_empty_startDate_dash_branch_dead :
    formatDate "" = "Present" ∧
    (∀ s : String, formatDate s ≠ "") ∧
    expRightText ⟨none, none, none, none, some "", some "2021-06", none, none, none⟩ =
      "Present - Jun 2021" :=
  ⟨by decide, formatDate_ne_empty, by decide⟩

/-- C5 (corrected): for `YYYY-MM` with numeric components, month 1–12 and
year 1000–9999, `formatDate` yields the abbreviated English month name, a
space, and the 4-digit year; a missing, empty, or surely-non-numeric
component returns the input unchanged (the function is total by
construction, never throwing); `"Present"` maps to `"Present"`.  The
year restriction 1000–9999 is the correction: the code remaps numeric
years 0–99 into 1900–1999 (see the counterexample) and prints years
100–999 without zero padding. -/
theorem c5_formatDate_normalization :
    (∀ (a b : String) (yv mv : Nat), jsNum a = some yv → jsNum b = some mv →
      1000 ≤ yv → yv ≤ 9999 → 1 ≤ mv → mv ≤ 12 →
      '-' ∉ a.data → '-' ∉ b.data →
      formatDate (a ++ "-" ++ b) = monthAbbrev (mv - 1) ++ " " ++ toString yv) ∧
    (∀ a b : String, '-' ∉ a.data → '-' ∉ b.data →
      (a = "" ∨ jsDefinitelyNonNumeric a ∨ b = "" ∨ jsDefinitelyNonNumeric b) →
      formatDate (a ++ "-" ++ b) = a ++ "-" ++ b) ∧
    (∀ s : String, '-' ∉ s.data → s ≠ "" → s ≠ "Present" → formatDate s = s) ∧
    formatDate "Present" = "Present" := by
  refine ⟨formatDate_valid, ?_, formatDate_no_dash, by decide⟩
  intro a b hda hdb h
  apply formatDate_unchanged a b hda hdb
  rcases h with h | h | h | h
  · exact Or.inl (jsFalsy_of_malformed a (Or.inl h))
  · exact Or.inl (jsFalsy_of_malformed a (Or.inr h))
  · exact Or.inr (jsFalsy_of_malformed b (Or.inl h))
  · exact Or.inr (jsFalsy_of_malformed b (Or.inr h))

/-- Witness for C5 at concrete inputs. -/
theorem c5_witness :
    formatDate ("2021" ++ "-" ++ "06") = monthAbbrev 5 ++ " " ++ toString 2021 ∧
    formatDate ("2021" ++ "-" ++ "junk") = "2021" ++ "-" ++ "junk" ∧
    formatDate "2021" = "2021" :=
  ⟨c5_formatDate_normalization.1 "2021" "06" 2021 6 (by decide) (by decide)
      (by decide) (by decide) (by decide) (by decide) (by decide) (by decide),
   c5_formatDate_normalization.2.1 "2021" "junk" (by decide) (by decide)
      (Or.inr (Or.inr (Or.inr (by decide)))),
   c5_formatDate_normalization.2.2.1 "2021" (by decide) (by decide) (by decide)⟩

/-- C5 counterexample: `"0050-06"` is a `YYYY-MM` input with numeric
components and a valid month, yet the formatted year is 1950, not 0050:
the `Date(year, monthIndex)` constructor remaps two-digit year values. -/
theorem c5_counterexample :
    formatDate "0050-06" = "Jun 1950" ∧ "Jun 1950" ≠ "Jun 0050" :=
  ⟨by decide, by decide⟩

/-- C10 (confirmed): numeric months outside 1–12 are not uniformly passed
through: a zero month is JS-falsy so the input comes back unchanged, while
a month ≥ 13 rolls over into later years through the `Date` constructor
(`"2021-13"` formats as `"Jan 2022"`). -/
theorem c10_out_of_range_months :
    formatDate "2021-00" = "2021-00" ∧
    formatDate "2021-13" = "Jan 2022" ∧
    (∀ (a b : String) (yv mv : Nat), jsNum a = some yv → jsNum b = some mv →
      1000 ≤ yv → yv ≤ 9999 → 13 ≤ mv → mv ≤ 99 →
      '-' ∉ a.data → '-' ∉ b.data →
      formatDate (a ++ "-" ++ b) =
        monthAbbrev ((mv - 1) % 12) ++ " " ++ toString (yv + (mv - 1) / 12)) :=
  ⟨by decide, by decide, formatDate_rollover⟩

/-- Witness for C10's universally quantified rollover clause. -/
theorem c10_witness :
    formatDate ("2021" ++ "-" ++ "13") =
      monthAbbrev ((13 - 1) % 12) ++ " " ++ toString (2021 + (13 - 1) / 12) ∧
    monthAbbrev ((13 - 1) % 12) ++ " " ++ toString (2021 + (13 - 1) / 12) = "Jan 2022" :=
  ⟨c10_out_of_range_months.2.2 "2021" "13" 2021 13 (by decide) (by decide)
      (by decide) (by decide) (by decide) (by decide) (by decide) (by decide),
   by decide⟩

/-! ## Claim theorems: the education status field (C7) -/

/-- Zeta-expanded form of `eduRightText`, for case analysis. -/
theorem eduRightText_eq (threshold : DateTime) (edu : Education) :
    eduRightText threshold edu =
      if jsTruthyS edu.date then
        (if (match parseIsoYearMonth (jsOr edu.date "") with
             | some (y, m) => DateTime.ltB ⟨(y : Int), m, 1, 0⟩ threshold
             | none => false) = true
         then "Status - Graduated" else formatDate (jsOr edu.date ""))
      else "" := rfl

/-- The formatted-date branch can never produce the status literal. -/
theorem jsDateMonthYear_ne_graduated (y m : Nat) :
    jsDateMonthYear y m ≠ "Status - Graduated" := by
  intro h
  have hk : (m - 1) % 12 < 12 := Nat.mod_lt _ (by norm_num)
  have hd : ((monthAbbrev ((m - 1) % 12)).data ++ " ".data) ++
      (toString ((if y ≤ 99 then 1900 + y else y) + (m - 1) / 12)).data =
      "Status - Graduated".data := by
    rw [← String.data_append, ← String.data_append, ← jsDateMonthYear_eq, h]
  have hlen1 : (monthAbbrev ((m - 1) % 12)).data.length = 3 := monthAbbrev_length _ hk
  have hlen2 : ((monthAbbrev ((m - 1) % 12)).data ++ " ".data).length = 4 := by
    rw [List.length_append, hlen1]
    rfl
  have h3 := congrArg (fun l => l.get? 3) hd
  simp only [] at h3
  rw [List.get?_append (by rw [hlen2]; omega),
      List.get?_append_right (by rw [hlen1]), hlen1] at h3
  exact absurd h3 (by decide)

/-- The function `formatDate` maps a string other than the status literal to something
other than the status literal. -/
theorem formatDate_ne_graduated (s : String) (h : s ≠ "Status - Graduated") :
    formatDate s ≠ "Status - Graduated" := by
  rw [formatDate_eq]
  split
  · decide
  · split
    · exact h
    · exact jsDateMonthYear_ne_graduated _ _

/-- With a truthy date, the right field is decided by `specIsOlderB`. -/
theorem eduRightText_of_truthy (now : DateTime) (edu : Education)
    (ht : jsTruthyS edu.date = true) :
    eduRightText (jsSetFullYearSub now 3) edu =
      if specIsOlderB (jsOr edu.date "") now 3 then "Status - Graduated"
      else formatDate (jsOr edu.date "") := by
  rw [eduRightText_eq, if_pos ht]
  rfl

/-- C7 (corrected): for a non-Certificate education record with a truthy
date, the right-aligned field reads `"Status - Graduated"` exactly when
the date, parsed as the first day of its month, is strictly earlier than
now minus 3 years — or (the correction) when the unparseable date string
is itself the literal `"Status - Graduated"`, which `formatDate` passes
through unchanged; when not older, the field shows the formatted date;
with an absent or empty date, no right-aligned instruction is issued. -/
theorem c7_education_status_field :
    ∀ (cfg : TextMetrics) (now : DateTime) (y : Frac) (edu : Education),
    edu.degreeType ≠ some "Certificate" →
    ((jsTruthyS edu.date = true →
       ((eduRightText (jsSetFullYearSub now 3) edu = "Status - Graduated") ↔
         (specIsOlderB (jsOr edu.date "") now 3 = true ∨
          jsOr edu.date "" = "Status - Graduated")) ∧
       (specIsOlderB (jsOr edu.date "") now 3 = false →
         eduRightText (jsSetFullYearSub now 3) edu = formatDate (jsOr edu.date ""))) ∧
     (jsTruthyS edu.date = false →
       ∀ op ∈ (renderEducationRecord cfg (jsSetFullYearSub now 3) y edu).1,
         opAlign op ≠ some "right")) := by
  intro cfg now y edu hcert
  constructor
  · intro ht
    rw [eduRightText_of_truthy now edu ht]
    constructor
    · cases hold : specIsOlderB (jsOr edu.date "") now 3 with
      | true => simp
      | false =>
        rw [if_neg (by simp)]
        constructor
        · intro h
          by_cases hne : jsOr edu.date "" = "Status - Graduated"
          · exact Or.inr hne
          · exact absurd h (formatDate_ne_graduated _ hne)
        · rintro (h | h)
          · exact Bool.noConfusion h
          · rw [h]; decide
    · intro hnot
      rw [hnot]
      simp
  · intro hf
    intro op hop
    have hrt : eduRightText (jsSetFullYearSub now 3) edu = "" := by
      rw [eduRightText_eq, if_neg (by rw [hf]; decide)]
    unfold renderEducationRecord at hop
    rw [if_neg hcert, hrt] at hop
    simp only [ne_eq, not_true_eq_false, if_false, List.append_nil] at hop
    unfold pageBreakPlain at hop
    by_cases hbr : y + sectionLineHeight > 280
    · rw [if_pos hbr] at hop
      rcases List.mem_append.mp hop with h | h
      · rcases List.mem_singleton.mp h with rfl
        simp [opAlign]
      · rcases List.mem_singleton.mp h with rfl
        simp [opAlign]
    · rw [if_neg hbr] at hop
      simp only [List.append_nil] at hop
      rcases List.mem_singleton.mp hop with rfl
      simp [opAlign]

/-- Witness for C7 at a concrete graduated record. -/
theorem c7_witness :
    eduRightText (jsSetFullYearSub ⟨2026, 10, 11, (0 : Frac)⟩ 3)
      ⟨some "2019-05", some "B.S.", some "State U", some "CS", none, none⟩ =
      "Status - Graduated" :=
  ((c7_education_status_field cfgU ⟨2026, 10, 11, (0 : Frac)⟩ 0
      ⟨some "2019-05", some "B.S.", some "State U", some "CS", none, none⟩
      (by decide)).1 (by decide)).1.mpr (Or.inl (by decide))

/-- C7 counterexample: a record whose date field is the (unparseable)
literal `"Status - Graduated"` displays `"Status - Graduated"` although it
is not older than the threshold, contradicting the claim's "exactly
when". -/
theorem c7_counterexample :
    eduRightText (jsSetFullYearSub ⟨2026, 10, 11, (0 : Frac)⟩ 3)
      ⟨some "Status - Graduated", some "B.S.", some "U", some "CS", none, none⟩ =
      "Status - Graduated" ∧
    parseIsoYearMonth "Status - Graduated" = none ∧
    specIsOlderB "Status - Graduated" ⟨2026, 10, 11, (0 : Frac)⟩ 3 = false :=
  ⟨by decide, by decide, by decide⟩

/-! ## Claim theorems: page breaks and the heading advance (C2, C3) -/

theorem mem_pageBreakPlain {x : Frac} {op : Op} (h : op ∈ (pageBreakPlain x).1) :
    op = Op.addPage := by
  unfold pageBreakPlain at h
  split at h
  · simpa using h
  · simp at h

theorem mem_pageBreakRefont {x : Frac} {op : Op} (h : op ∈ (pageBreakRefont x).1) :
    op = Op.addPage ∨ op = Op.setFontSize sectionFontSize := by
  unfold pageBreakRefont at h
  split at h
  · simpa using h
  · simp at h

theorem mem_renderEducationRecord {cfg : TextMetrics} {th : DateTime} {y : Frac}
    {edu : Education} {op : Op}
    (hop : op ∈ (renderEducationRecord cfg th y edu).1) :
    (∃ s x yy al, op = Op.text s x yy al) ∨ op = Op.addPage := by
  simp only [renderEducationRecord] at hop
  rcases List.mem_append.mp hop with h | h
  · split at h
    · simp only [List.mem_singleton] at h
      exact Or.inl ⟨_, _, _, _, h⟩
    · rcases List.mem_append.mp h with h1 | h1
      · simp only [List.mem_singleton] at h1
        exact Or.inl ⟨_, _, _, _, h1⟩
      · split at h1
        · simp only [List.mem_singleton] at h1
          exact Or.inl ⟨_, _, _, _, h1⟩
        · simp at h1
  · exact Or.inr (mem_pageBreakPlain h)

/-- C2 (corrected): every page-break check in the engine shares the same
threshold (cursor past 280mm), emits one page break, resets the cursor to
20mm, and leaves font style and colors untouched; the experience-loop
checks (after each bullet and after the inter-entry gap) additionally
re-apply the 10.5pt section font size, but — the correction — the
education-loop check emits no font-size instruction at all. -/
theorem c2_page_break_rule :
    ∀ (cfg : TextMetrics) (th : DateTime) (y : Frac) (edu : Education) (b : String),
    ((renderEducationRecord cfg th y edu).2 =
        (if y + sectionLineHeight > 280 then 20 else y + sectionLineHeight)) ∧
    ((Op.addPage ∈ (renderEducationRecord cfg th y edu).1) ↔
        y + sectionLineHeight > 280) ∧
    (∀ op ∈ (renderEducationRecord cfg th y edu).1, opIsSetFontSize op = false) ∧
    (∀ op ∈ (renderEducationRecord cfg th y edu).1, opIsStyleOrColor op = false) ∧
    (((bulletStep cfg ([], y) b).2 =
        (if y + ((cfg.splitTextToSize ("• " ++ b) (cfg.pageWidth - 2 * margin - 5)).length : Frac) *
            sectionLineHeight * 1.2 > 280 then 20
         else y + ((cfg.splitTextToSize ("• " ++ b) (cfg.pageWidth - 2 * margin - 5)).length : Frac) *
            sectionLineHeight * 1.2)) ∧
     ((Op.addPage ∈ (bulletStep cfg ([], y) b).1) ↔
        y + ((cfg.splitTextToSize ("• " ++ b) (cfg.pageWidth - 2 * margin - 5)).length : Frac) *
            sectionLineHeight * 1.2 > 280) ∧
     ((Op.setFontSize sectionFontSize ∈ (bulletStep cfg ([], y) b).1) ↔
        y + ((cfg.splitTextToSize ("• " ++ b) (cfg.pageWidth - 2 * margin - 5)).length : Frac) *
            sectionLineHeight * 1.2 > 280) ∧
     (∀ op ∈ (bulletStep cfg ([], y) b).1, opIsStyleOrColor op = false)) ∧
    (((entryGap y).2 =
        (if y + sectionLineHeight / 1.5 > 280 then 20 else y + sectionLineHeight / 1.5)) ∧
     ((Op.addPage ∈ (entryGap y).1) ↔ y + sectionLineHeight / 1.5 > 280) ∧
     ((Op.setFontSize sectionFontSize ∈ (entryGap y).1) ↔
        y + sectionLineHeight / 1.5 > 280) ∧
     (∀ op ∈ (entryGap y).1, opIsStyleOrColor op = false)) := by
  intro cfg th y edu b
  refine ⟨?_, ?_, ?_, ?_, ⟨?_, ?_, ?_, ?_⟩, ?_, ?_, ?_, ?_⟩
  · simp only [renderEducationRecord, pageBreakPlain]
    split_ifs <;> rfl
  · by_cases hbr : y + sectionLineHeight > 280
    · simp only [renderEducationRecord, pageBreakPlain, if_pos hbr]
      simp [hbr]
    · simp only [renderEducationRecord, pageBreakPlain, if_neg hbr]
      constructor
      · intro h
        rcases List.mem_append.mp h with h1 | h1
        · exfalso
          split at h1
          · simp at h1
          · rcases List.mem_append.mp h1 with h2 | h2
            · simp at h2
            · split at h2 <;> simp at h2
        · simp at h1
      · intro h
        exact absurd h hbr
  · intro op hop
    rcases mem_renderEducationRecord hop with ⟨s, x, yy, al, rfl⟩ | rfl <;> rfl
  · intro op hop
    rcases mem_renderEducationRecord hop with ⟨s, x, yy, al, rfl⟩ | rfl <;> rfl
  · simp only [bulletStep, pageBreakRefont]
    split_ifs <;> rfl
  · by_cases hbr : y + ((cfg.splitTextToSize ("• " ++ b) (cfg.pageWidth - 2 * margin - 5)).length : Frac) *
        sectionLineHeight * 1.2 > 280
    · simp only [bulletStep, pageBreakRefont, if_pos hbr]
      simp [hbr]
    · simp only [bulletStep, pageBreakRefont, if_neg hbr]
      simp [hbr]
  · by_cases hbr : y + ((cfg.splitTextToSize ("• " ++ b) (cfg.pageWidth - 2 * margin - 5)).length : Frac) *
        sectionLineHeight * 1.2 > 280
    · simp only [bulletStep, pageBreakRefont, if_pos hbr]
      simp [hbr]
    · simp only [bulletStep, pageBreakRefont, if_neg hbr]
      simp [hbr]
  · intro op hop
    simp only [bulletStep] at hop
    rcases List.mem_append.mp hop with h | h
    · rcases List.mem_append.mp h with h1 | h1
      · simp at h1
      · simp only [List.mem_singleton] at h1
        subst h1
        rfl
    · rcases mem_pageBreakRefont h with rfl | rfl <;> rfl
  · simp only [entryGap, pageBreakRefont]
    split_ifs <;> rfl
  · by_cases hbr : y + sectionLineHeight / 1.5 > 280
    · simp only [entryGap, pageBreakRefont, if_pos hbr]
      simp [hbr]
    · simp only [entryGap, pageBreakRefont, if_neg hbr]
      simp [hbr]
  · by_cases hbr : y + sectionLineHeight / 1.5 > 280
    · simp only [entryGap, pageBreakRefont, if_pos hbr]
      simp [hbr]
    · simp only [entryGap, pageBreakRefont, if_neg hbr]
      simp [hbr]
  · intro op hop
    simp only [entryGap] at hop
    rcases mem_pageBreakRefont hop with rfl | rfl <;> rfl

/-- C2 counterexample: a résumé with 75 education records overflows the
page inside the education loop, and the resulting trace contains a page
break not followed by any font-size re-application — the education check
resets the cursor but does not re-apply the section font size; the same
check at the unit level emits `addPage` and no `setFontSize`. -/
theorem c2_counterexample :
    breakWithoutRefont (generatePdf cfgU ⟨2026, 10, 11, (0 : Frac)⟩
      ⟨none, none, none, none, [], List.replicate 75
        ⟨none, some "B.S.", some "U", some "CS", none, none⟩, []⟩) = true ∧
    (Op.addPage ∈ (renderEducationRecord cfgU ⟨2023, 10, 11, (0 : Frac)⟩ 279
        ⟨none, some "B.S.", some "U", some "CS", none, none⟩).1 ∧
     ∀ op ∈ (renderEducationRecord cfgU ⟨2023, 10, 11, (0 : Frac)⟩ 279
        ⟨none, some "B.S.", some "U", some "CS", none, none⟩).1,
       opIsSetFontSize op = false) :=
  ⟨by decide, by decide, by decide⟩

/-- Classification of the instructions of one heading line: a hyperlink
instruction occurs only when both title and url are truthy, and no
block-text instruction ever occurs. -/
theorem mem_renderExpHeading (cfg : TextMetrics) (y : Frac) (exp : Experience) :
    ∀ op ∈ (renderExpHeading cfg y exp).1,
      (opIsLink op = true → jsOr exp.title "" ≠ "" ∧ jsOr exp.url "" ≠ "") ∧
      (∀ ls x yy al, op ≠ Op.textBlock ls x yy al) := by
  intro op hop
  simp only [renderExpHeading] at hop
  rcases List.mem_append.mp hop with h | h
  · rcases List.mem_append.mp h with h | h
    · rcases List.mem_append.mp h with h | h
      · simp only [List.mem_singleton] at h
        subst h
        exact ⟨fun hl => Bool.noConfusion hl, fun ls x yy al hh => Op.noConfusion hh⟩
      · by_cases ht : jsOr exp.title "" ≠ ""
        · rw [if_pos ht] at h
          rcases List.mem_append.mp h with h1 | h1
          · rcases List.mem_append.mp h1 with h2 | h2
            · by_cases hu : jsOr exp.url "" ≠ ""
              · rw [if_pos hu] at h2
                simp only [List.mem_singleton] at h2
                subst h2
                exact ⟨fun hl => Bool.noConfusion hl,
                  fun ls x yy al hh => Op.noConfusion hh⟩
              · rw [if_neg hu] at h2
                exact absurd h2 (List.not_mem_nil op)
            · simp only [List.mem_singleton] at h2
              subst h2
              exact ⟨fun hl => Bool.noConfusion hl,
                fun ls x yy al hh => Op.noConfusion hh⟩
          · by_cases hu : jsOr exp.url "" ≠ ""
            · rw [if_pos hu] at h1
              simp only [List.mem_cons, List.not_mem_nil, or_false] at h1
              rcases h1 with rfl | rfl | rfl | rfl | rfl
              · exact ⟨fun _ => ⟨ht, hu⟩, fun ls x yy al hh => Op.noConfusion hh⟩
              · exact ⟨fun hl => Bool.noConfusion hl,
                  fun ls x yy al hh => Op.noConfusion hh⟩
              · exact ⟨fun hl => Bool.noConfusion hl,
                  fun ls x yy al hh => Op.noConfusion hh⟩
              · exact ⟨fun hl => Bool.noConfusion hl,
                  fun ls x yy al hh => Op.noConfusion hh⟩
              · exact ⟨fun hl => Bool.noConfusion hl,
                  fun ls x yy al hh => Op.noConfusion hh⟩
            · rw [if_neg hu] at h1
              exact absurd h1 (List.not_mem_nil op)
        · rw [if_neg ht] at h
          exact absurd h (List.not_mem_nil op)
    · by_cases hr : ((if jsOr exp.company "" ≠ "" then [jsOr exp.company ""] else []) ++
          (if jsOr exp.location "" ≠ "" then [jsOr exp.location ""] else [])) ≠ ([] : List String)
      · rw [if_pos hr] at h
        simp only [List.mem_singleton] at h
        subst h
        exact ⟨fun hl => Bool.noConfusion hl, fun ls x yy al hh => Op.noConfusion hh⟩
      · rw [if_neg hr] at h
        exact absurd h (List.not_mem_nil op)
  · simp only [List.mem_singleton] at h
    subst h
    exact ⟨fun hl => Bool.noConfusion hl, fun ls x yy al hh => Op.noConfusion hh⟩

/-- C3 (corrected): after an experience heading line the cursor advances
by one section line height plus an extra millimetre if and only if the
record's `url` is non-empty — while a title hyperlink is drawn if and only
if both `title` and `url` are non-empty.  The claim's "extra mm iff a link
was drawn" fails when `url` is set but `title` is empty: the extra
millimetre is still added although no hyperlink exists. -/
theorem c3_heading_advance :
    ∀ (cfg : TextMetrics) (y : Frac) (exp : Experience),
    ((renderExpHeading cfg y exp).2 =
       (if jsOr exp.url "" ≠ "" then y + sectionLineHeight + 1
        else y + sectionLineHeight)) ∧
    ((∃ op ∈ (renderExpHeading cfg y exp).1, opIsLink op = true) ↔
       (jsOr exp.title "" ≠ "" ∧ jsOr exp.url "" ≠ "")) := by
  intro cfg y exp
  refine ⟨?_, ?_, ?_⟩
  · simp only [renderExpHeading]
  · rintro ⟨op, hop, hlink⟩
    exact (mem_renderExpHeading cfg y exp op hop).1 hlink
  · rintro ⟨ht, hu⟩
    refine ⟨Op.link margin (y - 4) (cfg.getTextWidth (jsOr exp.title "")) 5
      (jsOr exp.url ""), ?_, rfl⟩
    simp only [renderExpHeading, if_pos ht, if_pos hu]
    simp

/-! ## Claim theorems: the experience sorter (C6) -/

/-- The comparison `strLtb` decides the strict lexicographic order on character lists. -/
theorem strLtb_iff_lt : ∀ x y : List Char, strLtb x y = true ↔ x < y
  | [], [] => by
    constructor
    · intro h
      simp [strLtb] at h
    · intro h
      cases h
  | [], b :: bs => by
    constructor
    · intro _
      exact List.Lex.nil
    · intro _
      rfl
  | a :: as, [] => by
    constructor
    · intro h
      simp [strLtb] at h
    · intro h
      cases h
  | a :: as, b :: bs => by
    unfold strLtb
    split_ifs with h1 h2
    · exact iff_of_true rfl (List.Lex.rel h1)
    · constructor
      · intro h
        simp at h
      · intro h
        cases h with
        | cons htl => exact absurd h2 (lt_irrefl a)
        | rel hr => exact absurd hr h1
    · have hab : a = b := le_antisymm (not_lt.mp h2) (not_lt.mp h1)
      subst hab
      rw [strLtb_iff_lt as bs]
      constructor
      · intro h
        exact List.Lex.cons h
      · intro h
        cases h with
        | cons htl => exact htl
        | rel hr => exact absurd hr h1

/-- The `String` order agrees with `strLtb` on the character data. -/
theorem string_lt_iff (a b : String) : a < b ↔ strLtb a.data b.data = true :=
  Iff.trans String.lt_iff_toList_lt (strLtb_iff_lt a.data b.data).symm

theorem strLtb_self (x : List Char) : strLtb x x = false := by
  induction x with
  | nil => rfl
  | cons a as ih => simp [strLtb, lt_irrefl, ih]

/-- The comparator's sign encodes the non-strict string order. -/
theorem strCompareInt_le_iff (a b : String) : strCompareInt a b ≤ 0 ↔ a ≤ b := by
  unfold strCompareInt
  split_ifs with h1 h2
  · exact iff_of_true (by norm_num) ((string_lt_iff a b).mpr h1).le
  · exact iff_of_false (by norm_num) (not_le.mpr ((string_lt_iff b a).mpr h2))
  · refine iff_of_true (by norm_num) (not_lt.mp ?_)
    intro hba
    exact h2 ((string_lt_iff b a).mp hba)

/-- A numeric category lookup is the claim's priority. -/
theorem catOrd_num (a : Experience) (ha : catOrdNum a = true) :
    catOrd a = JsPriority.num (claimPriority a) := by
  unfold catOrdNum at ha
  unfold claimPriority
  cases h : catOrd a with
  | num n => rfl
  | protoMember k =>
    rw [h] at ha
    exact Bool.noConfusion ha

/-- On records whose category lookup is numeric, the effective
comparator's non-positive half agrees with the claimed key order. -/
theorem expR_iff (a b : Experience) (ha : catOrdNum a = true)
    (hb : catOrdNum b = true) : expR a b ↔ expKeyLe a b := by
  show sortCompareExp a b ≤ 0 ↔ _
  unfold sortCompareExp cmpExp
  rw [catOrd_num a ha, catOrd_num b hb]
  unfold expKeyLe
  by_cases hc : claimPriority a = claimPriority b
  · rw [if_pos (congrArg JsPriority.num hc), Option.getD_some, strCompareInt_le_iff]
    constructor
    · intro h
      exact Or.inr ⟨hc, h⟩
    · rintro (h | ⟨_, h⟩)
      · omega
      · exact h
  · rw [if_neg (fun h => hc (JsPriority.num.inj h))]
    show (claimPriority a : Int) - (claimPriority b : Int) ≤ 0 ↔ _
    constructor
    · intro h
      exact Or.inl (by omega)
    · rintro (h | ⟨heq, _⟩)
      · omega
      · exact absurd heq hc

/-- Records agreeing on the claim's priority and on their start-date
string can never be separated by the effective comparator, whatever their
categories: equal lookups fall to an equal-string comparison, numeric
lookups with the same priority are equal, and any remaining pair
subtracts an `Object.prototype` member, giving NaN, which `SortCompare`
treats as equality. -/
theorem expR_of_key_eq (a b : Experience)
    (hp : claimPriority a = claimPriority b)
    (hs : jsOr a.startDate "" = jsOr b.startDate "") :
    expR a b := by
  show sortCompareExp a b ≤ 0
  unfold sortCompareExp cmpExp
  by_cases hc : catOrd a = catOrd b
  · rw [if_pos hc, ← hs, Option.getD_some]
    unfold strCompareInt
    rw [strLtb_self]
    simp
  · rw [if_neg hc]
    cases hca : catOrd a with
    | num x =>
      cases hcb : catOrd b with
      | num y =>
        exfalso
        apply hc
        have h1 : claimPriority a = x := by unfold claimPriority; rw [hca]
        have h2 : claimPriority b = y := by unfold claimPriority; rw [hcb]
        rw [hca, hcb]
        have hxy : x = y := by omega
        rw [hxy]
      | protoMember k =>
        show (0 : Int) ≤ 0
        exact Int.le_refl 0
    | protoMember k =>
      cases hcb : catOrd b with
      | num y =>
        show (0 : Int) ≤ 0
        exact Int.le_refl 0
      | protoMember k2 =>
        show (0 : Int) ≤ 0
        exact Int.le_refl 0

instance : IsTotal Experience expKeyLe :=
  ⟨fun a b => by
    unfold expKeyLe
    rcases Nat.lt_trichotomy (claimPriority a) (claimPriority b) with h | h | h
    · exact Or.inl (Or.inl h)
    · rcases le_total (jsOr b.startDate "") (jsOr a.startDate "") with hs | hs
      · exact Or.inl (Or.inr ⟨h, hs⟩)
      · exact Or.inr (Or.inr ⟨h.symm, hs⟩)
    · exact Or.inr (Or.inl h)⟩

instance : IsTrans Experience expKeyLe :=
  ⟨fun a b c hab hbc => by
    unfold expKeyLe at hab hbc ⊢
    rcases hab with h1 | ⟨e1, s1⟩ <;> rcases hbc with h2 | ⟨e2, s2⟩
    · exact Or.inl (h1.trans h2)
    · exact Or.inl (by omega)
    · exact Or.inl (by omega)
    · exact Or.inr ⟨e1.trans e2, s2.trans s1⟩⟩

/-- Inserting by two relations that agree on the elements involved gives
the same list. -/
theorem orderedInsert_congr {α : Type} (r s : α → α → Prop)
    [DecidableRel r] [DecidableRel s] (a : α) :
    ∀ l : List α, (∀ b ∈ l, (r a b ↔ s a b)) →
      l.orderedInsert r a = l.orderedInsert s a
  | [], _ => rfl
  | b :: t, h => by
    simp only [List.orderedInsert]
    by_cases hr : r a b
    · rw [if_pos hr, if_pos ((h b (List.mem_cons_self b t)).mp hr)]
    · rw [if_neg hr, if_neg (fun hsb => hr ((h b (List.mem_cons_self b t)).mpr hsb)),
        orderedInsert_congr r s a t (fun x hx => h x (List.mem_cons_of_mem b hx))]

/-- Sorting by two relations that agree on all pairs of the list gives
the same list. -/
theorem insertionSort_congr {α : Type} (r s : α → α → Prop)
    [DecidableRel r] [DecidableRel s] :
    ∀ l : List α, (∀ a ∈ l, ∀ b ∈ l, (r a b ↔ s a b)) →
      l.insertionSort r = l.insertionSort s
  | [], _ => rfl
  | a :: t, h => by
    simp only [List.insertionSort]
    rw [insertionSort_congr r s t (fun x hx y hy =>
      h x (List.mem_cons_of_mem a hx) y (List.mem_cons_of_mem a hy))]
    exact orderedInsert_congr r s a _ (fun b hb =>
      h a (List.mem_cons_self a t) b
        (List.mem_cons_of_mem a ((List.perm_insertionSort s t).mem_iff.mp hb)))

/-- Inserting into a list keeps the filter by any class that the relation
cannot separate: the heart of comparator-sort stability. -/
theorem filter_orderedInsert {α : Type} (r : α → α → Prop) [DecidableRel r]
    (p : α → Bool) (a : α) :
    ∀ l : List α, (∀ b ∈ l, p a = true → p b = true → r a b) →
    (l.orderedInsert r a).filter p =
      (if p a then a :: l.filter p else l.filter p)
  | [], _ => by
    cases hpa : p a <;> simp [List.orderedInsert, List.filter, hpa]
  | b :: t, h => by
    simp only [List.orderedInsert]
    by_cases hr : r a b
    · rw [if_pos hr, List.filter_cons]
    · rw [if_neg hr]
      simp only [List.filter_cons]
      rw [filter_orderedInsert r p a t (fun x hx => h x (List.mem_cons_of_mem b hx))]
      by_cases hpa : p a = true
      · have hpb : p b = false := by
          cases hpb : p b
          · rfl
          · exact absurd (h b (List.mem_cons_self b t) hpa hpb) hr
        simp [hpa, hpb]
      · have hpa2 : p a = false := by
          cases hq : p a
          · rfl
          · exact absurd hq hpa
        simp [hpa2]

/-- A stable comparator sort preserves every key-class subsequence. -/
theorem filter_insertionSort {α : Type} (r : α → α → Prop) [DecidableRel r]
    (p : α → Bool) (hp : ∀ a b, p a = true → p b = true → r a b) :
    ∀ l : List α, (l.insertionSort r).filter p = l.filter p
  | [] => rfl
  | a :: l => by
    rw [List.insertionSort, filter_orderedInsert r p a _ (fun b _ => hp a b),
      filter_insertionSort r p hp l, List.filter_cons]

/-- C6 (corrected): provided no record's category is the name of an
inherited `Object.prototype` member — for those `categoryOrder[c]` finds
the inherited member, the comparator's subtraction is NaN, and
`SortCompare` treats the pair as equal instead of giving priority 99 —
the experience sort is a permutation ordered by category priority
ascending then start-date string descending (records with empty start
dates come last within their priority group).  Stability (each
priority/start-date class keeps its original subsequence) holds for all
inputs, and the `[Project, Work Experience, Volunteer]` example sorts to
`[Work Experience, Project, Volunteer]`. -/
theorem c6_experience_sort :
    ∀ (l : List Experience) (pri : Nat) (sd : String),
    (∀ e ∈ l, catOrdNum e = true) →
    (sortExperience l).Perm l ∧
    (sortExperience l).Pairwise expKeyLe ∧
    ((sortExperience l).filter
        (fun e => decide (claimPriority e = pri ∧ jsOr e.startDate "" = sd)) =
      l.filter (fun e => decide (claimPriority e = pri ∧ jsOr e.startDate "" = sd))) ∧
    sortExperience [demoCat "p" "Project", demoCat "w" "Work Experience",
        demoCat "v" "Volunteer"] =
      [demoCat "w" "Work Experience", demoCat "p" "Project",
        demoCat "v" "Volunteer"] := by
  intro l pri sd hcons
  refine ⟨List.perm_insertionSort expR l, ?_, ?_, by decide⟩
  · show (l.insertionSort expR).Pairwise expKeyLe
    rw [insertionSort_congr expR expKeyLe l
      (fun a ha b hb => expR_iff a b (hcons a ha) (hcons b hb))]
    exact List.sorted_insertionSort expKeyLe l
  · refine filter_insertionSort expR _ (fun a b ha hb => ?_) l
    have h1 := of_decide_eq_true ha
    have h2 := of_decide_eq_true hb
    exact expR_of_key_eq a b (h1.1.trans h2.1.symm) (h1.2.trans h2.2.symm)

/-- A closed instance of the corrected C6 theorem: the demo list has no
`Object.prototype`-member category, and sorts as stated. -/
theorem c6_witness :
    (∀ e ∈ [demoCat "p" "Project", demoCat "w" "Work Experience",
        demoCat "v" "Volunteer"], catOrdNum e = true) ∧
    sortExperience [demoCat "p" "Project", demoCat "w" "Work Experience",
        demoCat "v" "Volunteer"] =
      [demoCat "w" "Work Experience", demoCat "p" "Project",
        demoCat "v" "Volunteer"] :=
  ⟨by decide,
    (c6_experience_sort [demoCat "p" "Project", demoCat "w" "Work Experience",
      demoCat "v" "Volunteer"] 1 "" (by decide)).2.2.2⟩

/-- The frozen claim is false for a record whose category is `"toString"`:
the prototype-chain lookup `categoryOrder["toString"]` finds the inherited
`Object.prototype.toString`, which is truthy, so `|| 99` keeps it; the
comparator's subtraction with it is NaN, which `SortCompare` treats as
`+0`, so against a priority-1 `"Work Experience"` record the pair
compares equal both ways and the stable sort leaves the `"toString"`
record first — whereas the claimed priority-99 ordering (`expKeyLe`)
requires the `"Work Experience"` record strictly before it. -/
theorem c6_counterexample :
    catOrd (demoCat "t" "toString") = JsPriority.protoMember "toString" ∧
    cmpExp (demoCat "t" "toString") (demoCat "w" "Work Experience") = none ∧
    sortCompareExp (demoCat "t" "toString") (demoCat "w" "Work Experience") = 0 ∧
    sortCompareExp (demoCat "w" "Work Experience") (demoCat "t" "toString") = 0 ∧
    sortExperience [demoCat "t" "toString", demoCat "w" "Work Experience"] =
      [demoCat "t" "toString", demoCat "w" "Work Experience"] ∧
    ¬ expKeyLe (demoCat "t" "toString") (demoCat "w" "Work Experience") :=
  ⟨by decide, by decide, by decide, by decide, by decide, by decide⟩

theorem c3_counterexample :
    (renderExpHeading cfgU 100
        ⟨none, none, none, some "https://a.example", none, none, none, none, none⟩).2 =
      100 + sectionLineHeight + 1 ∧
    (∀ op ∈ (renderExpHeading cfgU 100
        ⟨none, none, none, some "https://a.example", none, none, none, none, none⟩).1,
      opIsLink op = false) :=
  ⟨by decide, by decide⟩

/-! ## Claim theorems: bullets (C8) and totality (C9) -/

theorem string_ne_empty_iff_length (s : String) : s ≠ "" ↔ s.length > 0 := by
  constructor
  · intro h
    cases hs : s.data with
    | nil =>
      exfalso
      apply h
      cases s
      cases hs
      rfl
    | cons c cs =>
      show 0 < s.data.length
      rw [hs]
      exact Nat.succ_pos _
  · intro h heq
    subst heq
    exact Nat.lt_irrefl 0 h

/-- The code's bullet collection equals the claim's description. -/
theorem bulletsOf_eq_specBullets (exp : Experience) :
    bulletsOf exp = specBullets exp := by
  unfold bulletsOf specBullets
  congr 1
  · cases hs : exp.summary with
    | none => rfl
    | some s =>
      have hjs : jsOr (some s) "" = s := by
        by_cases h : s = ""
        · subst h
          rfl
        · show (if s = "" then "" else s) = s
          rw [if_neg h]
      rw [hjs]
      show (if jsTrim s = "" then [] else [jsTrim s]) = _
      by_cases ht : jsTrim s = ""
      · rw [if_pos ht, if_neg (by simp [ht])]
      · rw [if_neg ht, if_pos ht]
  · cases hd : exp.details with
    | none => rfl
    | some d =>
      by_cases hde : d = ""
      · subst hde
        rfl
      · have hjs : jsOr (some d) "" = d := by
          show (if d = "" then "" else d) = d
          rw [if_neg hde]
        rw [hjs]
        rw [if_pos (by simp [jsTruthyS, hde])]
        show ((jsSplitNewline ((some d).getD "")).map jsTrim).filter
            (fun s => decide (s.length > 0)) = _
        simp only [Option.getD_some]
        refine List.filter_congr ?_
        intro s _
        rw [decide_eq_decide]
        exact (string_ne_empty_iff_length s).symm

theorem extractBlocks_append (l1 l2 : List Op) :
    extractBlocks (l1 ++ l2) = extractBlocks l1 ++ extractBlocks l2 :=
  List.filterMap_append l1 l2 _

theorem extractBlocks_pageBreakRefont (x : Frac) :
    extractBlocks (pageBreakRefont x).1 = [] := by
  unfold pageBreakRefont
  split <;> rfl

/-- The block-text instructions of the bullet loop are exactly the wrapped
bullets, in order. -/
theorem extractBlocks_bulletFold (cfg : TextMetrics) :
    ∀ (bs : List String) (acc : List Op × Frac),
    extractBlocks ((bs.foldl (bulletStep cfg) acc).1) =
      extractBlocks acc.1 ++ bs.map (fun b =>
        cfg.splitTextToSize ("• " ++ b) (cfg.pageWidth - 2 * margin - 5))
  | [], acc => by simp
  | b :: bs, acc => by
    rw [List.foldl_cons, extractBlocks_bulletFold cfg bs]
    simp only [bulletStep]
    rw [extractBlocks_append, extractBlocks_append, extractBlocks_pageBreakRefont]
    simp [extractBlocks]

theorem extractBlocks_renderExpBullets (cfg : TextMetrics) (y : Frac)
    (exp : Experience) :
    extractBlocks (renderExpBullets cfg y exp).1 =
      ((bulletsOf exp).take 8).map (fun b =>
        cfg.splitTextToSize ("• " ++ b) (cfg.pageWidth - 2 * margin - 5)) := by
  unfold renderExpBullets
  rw [extractBlocks_bulletFold]
  rfl

theorem extractBlocks_renderExpHeading (cfg : TextMetrics) (y : Frac)
    (exp : Experience) :
    extractBlocks (renderExpHeading cfg y exp).1 = [] := by
  unfold extractBlocks
  rw [List.filterMap_eq_nil]
  intro op hop
  rcases mem_renderExpHeading cfg y exp op hop with ⟨_, hnb⟩
  cases op with
  | textBlock ls x yy al => exact absurd rfl (hnb ls x yy al)
  | _ => rfl

/-- C8 (confirmed): the rendered bullets are exactly the trimmed non-empty
summary followed by the trimmed non-empty detail lines in order, truncated
to at most 8 — the block-text instructions of the bullet loop are the
wrapped forms of the first 8 candidates — and an entry with 10 non-empty
detail lines renders exactly 8 bullets. -/
theorem c8_bullet_truncation :
    ∀ (cfg : TextMetrics) (y : Frac) (exp : Experience),
    bulletsOf exp = specBullets exp ∧
    extractBlocks (renderExpBullets cfg y exp).1 =
      ((bulletsOf exp).take 8).map (fun b =>
        cfg.splitTextToSize ("• " ++ b) (cfg.pageWidth - 2 * margin - 5)) ∧
    (extractBlocks (renderExpEntry cfg y exp10).1).length = 8 := by
  intro cfg y exp
  refine ⟨bulletsOf_eq_specBullets exp, extractBlocks_renderExpBullets cfg y exp, ?_⟩
  show (extractBlocks ((renderExpHeading cfg y exp10).1 ++
    (renderExpBullets cfg (renderExpHeading cfg y exp10).2 exp10).1 ++
    (entryGap (renderExpBullets cfg (renderExpHeading cfg y exp10).2 exp10).2).1)).length = 8
  rw [extractBlocks_append, extractBlocks_append,
    extractBlocks_renderExpHeading, extractBlocks_renderExpBullets]
  show ((([] : List (List String)) ++
    (((bulletsOf exp10).take 8).map _ ++ extractBlocks (pageBreakRefont _).1))).length = 8
  rw [extractBlocks_pageBreakRefont]
  simp only [List.nil_append, List.append_nil, List.length_map]
  decide

/-- C9 (corrected): the layout engine is total — every résumé document,
however sparse, yields an instruction trace, which always begins with the
font-setup instruction — and malformed dates pass through `formatDate`'s
fallback; but, the correction: a missing education `degreeType`,
`category` or `name` is template-interpolated as the literal text
`undefined`, not as the empty string, while the header and experience
fields are the ones defaulted to empty strings (`endDate` to
`"Present"`). -/
theorem c9_layout_totality :
    (∀ (cfg : TextMetrics) (now : DateTime) (doc : Resume),
      ∃ rest, generatePdf cfg now doc = Op.setFont "helvetica" "normal" :: rest) ∧
    eduLeftText ⟨none, none, none, none, none, none⟩ =
      "• undefined in undefined | undefined" ∧
    expRightText ⟨none, none, none, none, none, none, none, none, none⟩ =
      "Present - Present" := by
  refine ⟨?_, by decide, by decide⟩
  intro cfg now doc
  exact ⟨_, rfl⟩

/-- C9 counterexample: an education record with all fields missing renders
its left line as `"• undefined in undefined | undefined"`, not as the
empty-string rendering `"•  in  | "`; the full engine emits that literal
text for such a record. -/
theorem c9_counterexample :
    eduLeftText ⟨none, none, none, none, none, none⟩ =
      "• undefined in undefined | undefined" ∧
    eduLeftText ⟨none, some "", some "", some "", none, none⟩ = "•  in  | " ∧
    ("• undefined in undefined | undefined" ≠ "•  in  | ") ∧
    ((generatePdf cfgU ⟨2026, 10, 11, (0 : Frac)⟩
        ⟨none, none, none, none, [], [⟨none, none, none, none, none, none⟩], []⟩).any
      (fun op => decide (opTextContent op =
        some "• undefined in undefined | undefined")) = true) :=
  ⟨by decide, by decide, by decide, by decide⟩

/-! ## Claim theorems: the persistence round-trip (C4) -/

/-- On every camelCase schema key, the migration map is the identity. -/
theorem mapKeyToProperty_id_on_schema :
    ∀ k ∈ contactKeys ++ educationKeys ++ experienceKeys,
      mapKeyToProperty k = k := by decide

theorem migrateItem_id (item : JsObject)
    (h : ∀ kv ∈ item, mapKeyToProperty kv.1 = kv.1) : migrateItem item = item := by
  unfold migrateItem
  induction item with
  | nil => rfl
  | cons kv t ih =>
    rw [List.map_cons, h kv (List.mem_cons_self kv t),
      ih (fun x hx => h x (List.mem_cons_of_mem kv hx))]

theorem map_migrateItem_id (ks : List String) (l : List JsObject)
    (hks : ∀ k ∈ ks, mapKeyToProperty k = k)
    (hl : ∀ item ∈ l, ∀ kv ∈ item, kv.1 ∈ ks) : l.map migrateItem = l := by
  induction l with
  | nil => rfl
  | cons item t ih =>
    rw [List.map_cons,
      migrateItem_id item (fun kv hkv => hks kv.1 (hl item (List.mem_cons_self item t) kv hkv)),
      ih (fun it hit => hl it (List.mem_cons_of_mem item hit))]

theorem jsOr_some_empty (s : String) : jsOr (some s) "" = s := by
  by_cases h : s = ""
  · subst h
    rfl
  · show (if s = "" then "" else s) = s
    rw [if_neg h]

/-- C4 (corrected): loading a schema-conforming document (all fields
present, records keyed with the schema's camelCase names) and serializing
the resume state back reproduces every schema field — `name`, `email`,
`phone`, `additionalText`, `contacts`, `education`, `experience`,
`tags` — except `version`: `safeLoadResume` never assigns `version`, so
the serialized document carries the application's pre-load version
instead of the loaded document's. -/
theorem c4_round_trip :
    ∀ (init : ResumeState) (v : Option String) (a b c d : String)
      (cl el xl : List JsObject) (tl : List Tag),
    (∀ item ∈ cl, ∀ kv ∈ item, kv.1 ∈ contactKeys) →
    (∀ item ∈ el, ∀ kv ∈ item, kv.1 ∈ educationKeys) →
    (∀ item ∈ xl, ∀ kv ∈ item, kv.1 ∈ experienceKeys) →
    serializeResume (safeLoadResume init
      ⟨v, some a, some b, some c, some d, some cl, some el, some xl, some tl⟩) =
      ⟨some init.version, some a, some b, some c, some d, some cl, some el,
       some xl, some tl⟩ := by
  intro init v a b c d cl el xl tl hc he hx
  have hkc : ∀ k ∈ contactKeys, mapKeyToProperty k = k := fun k hk =>
    mapKeyToProperty_id_on_schema k (List.mem_append_left _ (List.mem_append_left _ hk))
  have hke : ∀ k ∈ educationKeys, mapKeyToProperty k = k := fun k hk =>
    mapKeyToProperty_id_on_schema k (List.mem_append_left _ (List.mem_append_right _ hk))
  have hkx : ∀ k ∈ experienceKeys, mapKeyToProperty k = k := fun k hk =>
    mapKeyToProperty_id_on_schema k (List.mem_append_right _ hk)
  unfold serializeResume safeLoadResume
  simp only [LoadedDoc.mk.injEq, Option.getD_some]
  refine ⟨trivial, ?_, ?_, ?_, ?_, ?_, ?_, ?_, trivial⟩
  · rw [jsOr_some_empty]
  · rw [jsOr_some_empty]
  · rw [jsOr_some_empty]
  · rw [jsOr_some_empty]
  · rw [map_migrateItem_id contactKeys cl hkc hc]
  · rw [map_migrateItem_id educationKeys el hke he]
  · rw [map_migrateItem_id experienceKeys xl hkx hx]

/-- Witness for C4 at a concrete non-trivial document. -/
theorem c4_witness :
    serializeResume (safeLoadResume initialResume
      ⟨some "1.0.0", some "Jane Doe", some "jane@x.com", some "555-1234", some "",
       some [[("name", "GitHub"), ("url", "https://github.com/jane")]],
       some [[("degreeType", "B.S."), ("name", "State U"), ("date", "2019-05")]],
       some [[("title", "Engineer"), ("startDate", "2020-01"), ("category", "Work Experience")]],
       some [⟨"rust", false⟩]⟩) =
      ⟨some "1.0.0", some "Jane Doe", some "jane@x.com", some "555-1234", some "",
       some [[("name", "GitHub"), ("url", "https://github.com/jane")]],
       some [[("degreeType", "B.S."), ("name", "State U"), ("date", "2019-05")]],
       some [[("title", "Engineer"), ("startDate", "2020-01"), ("category", "Work Experience")]],
       some [⟨"rust", false⟩]⟩ :=
  c4_round_trip initialResume (some "1.0.0") "Jane Doe" "jane@x.com" "555-1234" ""
    [[("name", "GitHub"), ("url", "https://github.com/jane")]]
    [[("degreeType", "B.S."), ("name", "State U"), ("date", "2019-05")]]
    [[("title", "Engineer"), ("startDate", "2020-01"), ("category", "Work Experience")]]
    [⟨"rust", false⟩] (by decide) (by decide) (by decide)

/-- C4 counterexample: a conforming document whose `version` is `"0.9.0"`
does not round-trip — the reloaded-then-serialized document carries the
application version `"1.0.0"` instead. -/
theorem c4_counterexample :
    (serializeResume (safeLoadResume initialResume
      ⟨some "0.9.0", some "A", some "", some "", some "",
       some [], some [], some [], some []⟩)).version = some "1.0.0" ∧
    (⟨some "0.9.0", some "A", some "", some "", some "",
       some [], some [], some [], some []⟩ : LoadedDoc).version = some "0.9.0" ∧
    serializeResume (safeLoadResume initialResume
      ⟨some "0.9.0", some "A", some "", some "", some "",
       some [], some [], some [], some []⟩) ≠
      ⟨some "0.9.0", some "A", some "", some "", some "",
       some [], some [], some [], some []⟩ :=
  ⟨by decide, by decide, by decide⟩

end ResumeGen
